import Mathlib

/-!
Verification of the docudevs azure-function repository core:
the configuration resolver (`docudevs_function/configuration.py`) and the
document orchestrator (`docudevs_function/processor.py`), shallowly embedded
in Lean.  Python values parsed from JSON are modelled by `PValue`,
`pathlib.PurePosixPath` by `PPath`, blob byte strings by `Bytes`, Python
exceptions by `PyErr`, and the mutable stores by explicit state passing.
-/

/-- Model of a Python value as produced by `json.loads` (plus Python
`bool`/`int`/`float`/`str` scalars).  Python floats are modelled as exact
rationals; the claims under study never depend on rounding. -/
inductive PValue where
  | null
  | vbool (b : Bool)
  | vint (n : Int)
  | vfloat (q : Rat)
  | vstr (s : String)
  | varr (xs : List PValue)
  | vobj (fields : List (String × PValue))

/-- Association-list lookup, modelling Python `dict.__getitem__`-by-key with
insertion-ordered keys (the first matching key wins, as after `dict` insert
shadowing in the model). -/
def assocGet {α : Type} : List (String × α) → String → Option α
  | [], _ => none
  | (k, v) :: rest, key => if k = key then some v else assocGet rest key

/-- Model of Python `d.get(key)` on a JSON object: a stored JSON `null` is the
Python value `None`, indistinguishable from an absent key for every caller in
this code base, so both are collapsed to `none`. -/
def pyGet (fields : List (String × PValue)) (key : String) : Option PValue :=
  match assocGet fields key with
  | some .null => none
  | some v => some v
  | none => none

/-- Python truthiness of a modelled value (`bool(v)`). -/
def pyTruthy : PValue → Bool
  | .null => false
  | .vbool b => b
  | .vint n => decide (n ≠ 0)
  | .vfloat q => decide (q ≠ 0)
  | .vstr s => decide (s ≠ "")
  | .varr xs => !xs.isEmpty
  | .vobj fs => !fs.isEmpty

/-- Model of Python `a or b` over optional values: `none` is Python `None`
(falsy); otherwise the first operand is returned when truthy, else the
second operand. -/
def pyOr (a b : Option PValue) : Option PValue :=
  match a with
  | some v => if pyTruthy v then some v else b
  | none => b

/-- Model of `pathlib.PurePosixPath`: an absolute-path flag plus the parsed
components.  Parsing (`parsePath`) drops empty and `"."` segments exactly as
`PurePosixPath` does; `".."` segments are kept.  The POSIX `"//"` double-root
corner case is not modelled. -/
structure PPath where
  absolute : Bool
  components : List String
deriving DecidableEq

/-- Split a character list at a separator, keeping empty segments, modelling
Python `str.split(sep)`. -/
def splitChars (sep : Char) : List Char → List (List Char)
  | [] => [[]]
  | c :: rest =>
    if c = sep then [] :: splitChars sep rest
    else
      match splitChars sep rest with
      | h :: t => (c :: h) :: t
      | [] => [[c]]

/-- Parse a string into a `PPath`, as `PurePosixPath(s)` does: the path is
absolute when the string starts with `/`, and empty and `"."` segments are
dropped. -/
def parsePath (s : String) : PPath :=
  let abs : Bool := match s.data with
    | '/' :: _ => true
    | _ => false
  ⟨abs, ((splitChars '/' s.data).map String.mk).filter (fun c => c ≠ "" && c ≠ ".")⟩

/-- Render a component list the way `str(PurePosixPath(...))` joins parts with
`/`. -/
def compsString : List String → String
  | [] => ""
  | [c] => c
  | c :: rest => c ++ "/" ++ compsString rest

/-- Model of `str(path)` / `path.as_posix()` (identical for a
`PurePosixPath`): `"."` for an empty relative path, `"/"`-prefixed for
absolute paths. -/
def PPath.toString (p : PPath) : String :=
  if p.absolute then "/" ++ compsString p.components
  else if p.components.isEmpty then "." else compsString p.components

/-- Model of `path.parent`: drop the last component; the root (`"."` or `"/"`)
is its own parent. -/
def PPath.parent (p : PPath) : PPath :=
  ⟨p.absolute, p.components.dropLast⟩

/-- Model of `path.name`: the final component, `""` when there is none. -/
def PPath.name (p : PPath) : String :=
  (p.components.getLast?).getD ""

/-- A path whose components contain no empty and no `"."` segment — the shape
every path produced by `parsePath` (and closed under `parent`) has. -/
def PPath.Valid (p : PPath) : Prop :=
  ∀ c ∈ p.components, c ≠ "" ∧ c ≠ "."

/-- Model of a blob's byte string.  `jsonOf v` stands for bytes whose JSON
parse is `v` (abstracting `json.dumps`/`json.loads` round trips), `utf8 s`
for the UTF-8 encoding of a string, and `raw t` for opaque binary content;
the latter two are treated as not JSON-parseable by the model. -/
inductive Bytes where
  | raw (tag : String)
  | jsonOf (v : PValue)
  | utf8 (s : String)

mutual
/-- Compact JSON rendering used to model `json.dumps`; object braces are the
escaped characters `\x7b`/`\x7d`. -/
def PValue.dumps : PValue → String
  | .null => "null"
  | .vbool b => if b then "true" else "false"
  | .vint n => ToString.toString n
  | .vfloat q => ToString.toString q
  | .vstr s => "\"" ++ s ++ "\""
  | .varr xs => "[" ++ dumpsList xs ++ "]"
  | .vobj fs => "\x7b" ++ dumpsFields fs ++ "\x7d"
def dumpsList : List PValue → String
  | [] => ""
  | [v] => PValue.dumps v
  | v :: rest => PValue.dumps v ++ "," ++ dumpsList rest
def dumpsFields : List (String × PValue) → String
  | [] => ""
  | [(k, v)] => "\"" ++ k ++ "\":" ++ PValue.dumps v
  | (k, v) :: rest => "\"" ++ k ++ "\":" ++ PValue.dumps v ++ "," ++ dumpsFields rest
end

/-- Model of `data.decode("utf-8", errors="replace")` on modelled bytes. -/
def bytesDecode : Bytes → String
  | .raw t => t
  | .jsonOf v => v.dumps
  | .utf8 s => s

/-- Model of Python bytes truthiness (`if content:`). -/
def bytesTruthy : Bytes → Bool
  | .raw t => decide (t ≠ "")
  | .jsonOf _ => true
  | .utf8 s => decide (s ≠ "")

/-- Model of `json.loads(data.decode("utf-8"))` as a partial function:
`none` models a raised `json.JSONDecodeError`. -/
def parseJsonBytes : Bytes → Option PValue
  | .jsonOf v => some v
  | .raw _ => none
  | .utf8 _ => none

/-- Model of raised Python exceptions, one constructor per exception type the
embedded code can raise, carrying `str(exc)`.  `jsonDecodeError` carries no
message (the library text is not modelled); `externalError` stands for an
arbitrary exception raised by an external client call. -/
inductive PyErr where
  | fileNotFound (msg : String)
  | valueError (msg : String)
  | attributeError (msg : String)
  | jsonDecodeError
  | runtimeError (msg : String)
  | externalError (msg : String)
deriving DecidableEq

/-- Model of `str(exc)` as persisted into failure artifacts. -/
def errMessage : PyErr → String
  | .fileNotFound m => m
  | .valueError m => m
  | .attributeError m => m
  | .jsonDecodeError => "JSON decode error"
  | .runtimeError m => m
  | .externalError m => m

/-- Lightweight representation of a blob object (`StorageObject` in
`configuration.py`). -/
structure StorageObject where
  data : Bytes
  content_type : String
  etag : String

/-- A recorded `put_object` call: container, blob name, data, content type and
the etag passed as optimistic-concurrency condition (empty = unconditional). -/
structure PutRecord where
  container : String
  name : String
  data : Bytes
  content_type : String
  etag : String

/-- Merged per-folder configuration (`FolderConfiguration` in
`configuration.py`).  `etags` is the insertion-ordered version-tag map. -/
structure FolderConfiguration where
  params : PValue
  source_folder : PPath
  schema : Option PValue
  metadata : Option PValue
  etags : List (String × String)

/-- State of a `ConfigurationStore`: the consumed storage capability (a pure
read map, since the store only reads through it), the container name, the
parsed default folder, and the cache (a map from normalized folder key to
configuration, modelling the Python dict). -/
structure ConfigurationStore where
  storage : String → String → Option StorageObject
  container : String
  defaultFolder : PPath
  cache : String → Option FolderConfiguration

/-- Model of `ConfigurationStore.__init__` with an empty cache; the default
folder string is parsed by `PurePosixPath`. -/
def mkConfigurationStore (storage : String → String → Option StorageObject)
    (container : String) (default_folder : String) : ConfigurationStore :=
  ⟨storage, container, parsePath default_folder, fun _ => none⟩

/-- Model of `_normalize_folder`: a path rendering as `""` or `"."` becomes
the empty relative path. -/
def normalizeFolder (p : PPath) : PPath :=
  if p.toString = "" ∨ p.toString = "." then ⟨false, []⟩ else p

/-- Normalized path for a folder given as a string (the `str` side of the
`str | PurePosixPath` union the Python methods accept). -/
def normS (s : String) : PPath :=
  normalizeFolder (parsePath s)

/-- Model of `str.lstrip("/")`. -/
def stripLeadingSlashes (s : String) : String :=
  String.mk (s.data.dropWhile (fun c => c = '/'))

/-- Model of `_join`: the blob name of `file_name` under `folder`. -/
def joinName (folder : PPath) (file_name : String) : String :=
  if folder.toString = "" ∨ folder.toString = "." then file_name
  else stripLeadingSlashes folder.toString ++ "/" ++ file_name

/-- Model of `_read_json`: fetch the blob and parse it; `ok none` models a
missing blob, and a parse failure models a raised `json.JSONDecodeError`. -/
def readJson (st : ConfigurationStore) (folder : PPath) (file_name : String) :
    Except PyErr (Option (PValue × String)) :=
  match st.storage st.container (joinName folder file_name) with
  | none => .ok none
  | some obj =>
    match parseJsonBytes obj.data with
    | some payload => .ok (some (payload, obj.etag))
    | none => .error .jsonDecodeError

/-- The optional payload of an optional three-file read: `schema[0] if schema
else None`, where a parsed JSON `null` is the Python value `None`. -/
def optPayload : Option (PValue × String) → Option PValue
  | some (.null, _) => none
  | some (v, _) => some v
  | none => none

/-- Version-tag entries contributed by an optional three-file read: recorded
exactly when the file is present, regardless of its payload. -/
def etagEntries (file_name : String) : Option (PValue × String) → List (String × String)
  | some (_, e) => [(file_name, e)]
  | none => []

/-- Model of the cache-miss body of `ConfigurationStore.build`
(`configuration.py` lines 56-94): consolidated `config.json` first, else the
three-file merge.  A non-object `config.json` payload raises an
`AttributeError` from `payload.get`, mirrored here. -/
def buildFresh (st : ConfigurationStore) (folder_path : PPath) :
    Except PyErr FolderConfiguration :=
  match readJson st folder_path "config.json" with
  | .error e => .error e
  | .ok (some (payload, etag)) =>
    match payload with
    | .vobj fields =>
      match pyGet fields "params" with
      | none => .error (.valueError ("config.json for " ++ folder_path.toString ++ " missing \x27params\x27"))
      | some params =>
        .ok ⟨params, folder_path, pyGet fields "schema", pyGet fields "metadata",
             [("config.json", etag)]⟩
    | _ => .error (.attributeError "\x27object\x27 has no attribute \x27get\x27")
  | .ok none =>
    match readJson st folder_path "params.json" with
    | .error e => .error e
    | .ok none => .error (.fileNotFound ("Missing params.json under " ++ folder_path.toString))
    | .ok (some (params, params_etag)) =>
      match readJson st folder_path "schema.json" with
      | .error e => .error e
      | .ok schemaRead =>
        match readJson st folder_path "metadata.json" with
        | .error e => .error e
        | .ok metadataRead =>
          .ok ⟨params, folder_path, optPayload schemaRead, optPayload metadataRead,
               ("params.json", params_etag)
                 :: (etagEntries "schema.json" schemaRead
                     ++ etagEntries "metadata.json" metadataRead)⟩

/-- Model of `ConfigurationStore.build`: normalize, consult the cache, else
read the files and cache a success.  Failures leave the store unchanged. -/
def build (st : ConfigurationStore) (folder : PPath) :
    Except PyErr FolderConfiguration × ConfigurationStore :=
  let folder_path := normalizeFolder folder
  let key := folder_path.toString
  match st.cache key with
  | some cached => (.ok cached, st)
  | none =>
    match buildFresh st folder_path with
    | .ok config =>
      (.ok config, { st with cache := fun k => if k = key then some config else st.cache k })
    | .error e => (.error e, st)

/-- `build` on a folder given as a string. -/
def buildS (st : ConfigurationStore) (folder : String) :
    Except PyErr FolderConfiguration × ConfigurationStore :=
  build st (parsePath folder)

/-- A path is its own parent exactly when it has no components. -/
lemma PPath.parent_eq_self_iff (p : PPath) : p.parent = p ↔ p.components = [] := by
  cases p with
  | mk a c =>
    cases c with
    | nil => simp [PPath.parent]
    | cons x xs =>
      simp only [PPath.parent, PPath.mk.injEq, true_and]
      constructor
      · intro hEq
        exfalso
        have hl := congrArg List.length hEq
        simp [List.length_dropLast] at hl
      · intro hEq
        exact absurd hEq (List.cons_ne_nil x xs)

/-- Body of the `_candidate_folders` generator loop, with an explicit fuel
argument making the recursion structural: each iteration strips the last
path component, so `components.length + 1` units of fuel always suffice
(`candidateAscent` supplies them).  The loop emits the current folder unless
its key was already seen, stops at a self-parent or at an empty/dot key, and
otherwise ascends to the parent. -/
def candidateAscentFuel : Nat → PPath → List String → List PPath
  | 0, _, _ => []
  | fuel + 1, current, seen =>
    let key := current.toString
    let emitted : List PPath := if key ∈ seen then [] else [current]
    let seen' : List String := if key ∈ seen then seen else key :: seen
    if current.parent = current then emitted
    else if key = "" ∨ key = "." then emitted
    else emitted ++ candidateAscentFuel fuel current.parent seen'

/-- Model of the `_candidate_folders` generator loop (the trailing
default-folder yield is appended by `candidate_folders`). -/
def candidateAscent (current : PPath) (seen : List String) : List PPath :=
  candidateAscentFuel (current.components.length + 1) current seen

/-- Model of `_candidate_folders`: the ascent chain followed by the default
folder, which is always yielded once more. -/
def candidate_folders (st : ConfigurationStore) (folder : PPath) : List PPath :=
  candidateAscent folder [] ++ [st.defaultFolder]

/-- The `resolve` raise message for a normalized folder path. -/
def noConfigMsg (fp : PPath) : String :=
  "No configuration found for folder \x27" ++ fp.toString ++ "\x27"

/-- Model of the `try build / except FileNotFoundError: continue` loop of
`ConfigurationStore.resolve`, threading the store state through the
attempts. -/
def resolveGo (msg : String) : ConfigurationStore → List PPath →
    Except PyErr FolderConfiguration × ConfigurationStore
  | st, [] => (.error (.fileNotFound msg), st)
  | st, c :: rest =>
    match build st c with
    | (.ok cfg, st') => (.ok cfg, st')
    | (.error (.fileNotFound _), st') => resolveGo msg st' rest
    | (.error e, st') => (.error e, st')

/-- Model of `ConfigurationStore.resolve`. -/
def resolve (st : ConfigurationStore) (folder : PPath) :
    Except PyErr FolderConfiguration × ConfigurationStore :=
  let folder_path := normalizeFolder folder
  resolveGo (noConfigMsg folder_path) st (candidate_folders st folder_path)

/-- `resolve` on a folder given as a string. -/
def resolveS (st : ConfigurationStore) (folder : String) :
    Except PyErr FolderConfiguration × ConfigurationStore :=
  resolve st (parsePath folder)

/-- Model of `ConfigurationStore.invalidate`: pop exactly the normalized
key. -/
def invalidate (st : ConfigurationStore) (folder : PPath) : ConfigurationStore :=
  { st with cache := fun k => if k = (normalizeFolder folder).toString then none else st.cache k }

/-- `invalidate` on a folder given as a string. -/
def invalidateS (st : ConfigurationStore) (folder : String) : ConfigurationStore :=
  invalidate st (parsePath folder)

/-- Optional configuration field rendered back into the JSON document
(`None` serializes as JSON `null`). -/
def optVal : Option PValue → PValue
  | some v => v
  | none => .null

/-- Model of `ConfigurationStore.write_consolidated_config`: serialize the
four-field document, choose the best version tag (`config.json` over
`params.json` over unconditional), write to `<folder>/config.json` — with the
source's dead `if folder_key` special case kept verbatim — and replace the
folder's cache entry.  Returns the recorded write and the new store state. -/
def write_consolidated_config (st : ConfigurationStore) (config : FolderConfiguration) :
    PutRecord × ConfigurationStore :=
  let payload : PValue := .vobj
    [("params", config.params), ("schema", optVal config.schema),
     ("metadata", optVal config.metadata), ("source", .vstr config.source_folder.toString)]
  let data := Bytes.jsonOf payload
  let etag := match assocGet config.etags "config.json" with
    | some e => e
    | none =>
      match assocGet config.etags "params.json" with
      | some e => e
      | none => ""
  let folder_key := config.source_folder.toString
  let target_name := if folder_key ≠ "" then folder_key ++ "/config.json" else "config.json"
  (⟨st.container, target_name, data, "application/json", etag⟩,
   { st with cache := fun k => if k = folder_key then some config else st.cache k })

/-- Outcome of orchestrating one document (`ProcessingOutcome`). -/
inductive ProcessingOutcome where
  | SUCCESS
  | FAILURE
deriving DecidableEq

/-- The parsed body of an upload response, as probed by `_extract_guid`:
a plain dict, a typed object (whose `guid` attribute is `some v` when
`hasattr(parsed, "guid")` holds, with `v = .null` for a stored `None`), or
any other object without a `guid` attribute. -/
inductive ParsedBody where
  | pdict (fields : List (String × PValue))
  | pobj (guidAttr : Option PValue)
  | pother

/-- An upload response as probed by `_extract_guid`: the optional `parsed`
attribute, the optional top-level `guid` attribute, and the raw `content`
bytes (`getattr(response, "content", b"")`). -/
structure UploadResponse where
  parsed : Option ParsedBody
  guid : Option PValue
  content : Bytes

/-- Whether a variable name starts with an underscore (`k.startswith("_")`),
used to select the visible fields of `vars(obj)`. -/
def startsWithUnderscore (s : String) : Bool :=
  match s.data with
  | c :: _ => c = '_'
  | [] => false

/-- The parsed body shapes distinguished by `_serialize_response`:
bytes/bytearray, an object with `to_dict`, a plain dict, or any other object
(serialized from its non-underscore `vars`). -/
inductive SerializableBody where
  | sbytes (b : Bytes)
  | stodict (fields : List (String × PValue))
  | sdict (fields : List (String × PValue))
  | sother (visible : List (String × PValue))

/-- A `process_document` response: its optional `status_code`, optional
`parsed` body and optional raw `content`. -/
structure ProcessResponse where
  status_code : Option Int
  parsed : Option SerializableBody
  content : Option Bytes

/-- A `wait_until_ready` result, by the shape cases of `_serialize_result`:
bytes, a string, an object with `to_dict`, a dict or list instance, an object
with `__dict__`, or any other JSON-dumpable value. -/
inductive WaitResult where
  | wbytes (b : Bytes)
  | wstr (s : String)
  | wtodict (fields : List (String × PValue))
  | wdictlike (v : PValue)
  | wobj (visible : List (String × PValue))
  | wother (v : PValue)

/-- The keyword arguments assembled by `_resolve_wait_parameters` and passed
to `wait_until_ready`; a `none` field is an omitted keyword. -/
structure WaitKwargs where
  timeout : Option Int
  poll_interval : Option Rat
  result_format : Option String
deriving DecidableEq

/-- The body handed to `upload_document`: the document bytes, file name and
resolved MIME type (the `File` payload of `UploadDocumentBody`). -/
structure UploadBody where
  payload : Bytes
  file_name : String
  mime_type : String

/-- Model of `_build_command`.  The external SDK calls
(`UploadCommand.from_dict`, the unset-check on `command.schema`, and
`additional_properties.setdefault`) are outside the repository; the modelled
command records the parameter dictionary with `mimeType` defaulted in, plus
the configuration schema and metadata the code injects. -/
structure UploadCommand where
  params : List (String × PValue)
  schema : Option PValue
  metadata : Option PValue

/-- Model of Python `dict.setdefault`: insert at the end when absent. -/
def dictSetdefault (fields : List (String × PValue)) (key : String) (v : PValue) :
    List (String × PValue) :=
  match assocGet fields key with
  | some _ => fields
  | none => fields ++ [(key, v)]

/-- Build the processing command from the (dict-shaped) parameters, the
configuration and the resolved MIME type. -/
def buildCommand (fields : List (String × PValue)) (config : FolderConfiguration)
    (mime_type : String) : UploadCommand :=
  ⟨dictSetdefault fields "mimeType" (.vstr mime_type), config.schema, config.metadata⟩

/-- The external DocuDevs client, modelled as response oracles for the three
calls the orchestrator makes; `Except.error m` models a raised exception with
text `m`. -/
structure DocuDevsClient where
  upload_document : UploadBody → Except String UploadResponse
  process_document : PValue → UploadCommand → Except String ProcessResponse
  wait_until_ready : WaitKwargs → Except String WaitResult

/-- State of a `DocumentProcessor`: the client, the storage read map, the
configuration store, the two container names, and the opaque version tag the
next `_generate_etag` call produces (modelling `uuid4`). -/
structure DocumentProcessor where
  client : DocuDevsClient
  storage : String → String → Option StorageObject
  config_store : ConfigurationStore
  input_container : String
  output_container : String
  fresh_etag : String

/-- Lowercase the first character of a key, as `key[0].lower() + key[1:]`. -/
def lowerFirst (key : String) : String :=
  match key.data with
  | [] => key
  | c :: rest => String.mk (c.toLower :: rest)

/-- Whether `key and key[0].isupper()` holds. -/
def startsUpper (key : String) : Bool :=
  match key.data with
  | c :: _ => c.isUpper
  | [] => false

/-- Model of `_lookup_param`: the key itself, else — only for keys starting
with an uppercase letter — its lower-first variant. -/
def lookupParam (params : List (String × PValue)) (key : String) : Option PValue :=
  match pyGet params key with
  | some v => some v
  | none =>
    if key != "" && startsUpper key then pyGet params (lowerFirst key)
    else none

/-- Model of `_resolve_mime_type`: an explicit non-empty string `mimeType`
(or `mime_type`) parameter, else the stored content type, else the generic
binary default. -/
def resolveMimeType (params : List (String × PValue)) (document : StorageObject) : String :=
  let params_mime := pyOr (lookupParam params "mimeType") (lookupParam params "mime_type")
  match params_mime with
  | some (.vstr s) =>
    if s ≠ "" then s
    else if document.content_type ≠ "" then document.content_type
    else "application/octet-stream"
  | _ =>
    if document.content_type ≠ "" then document.content_type
    else "application/octet-stream"

/-- First truthy value of `d.get(k1) or d.get(k2)`, then the `if guid:`
check: `some` exactly when a truthy value is found. -/
def truthyGuid (fields : List (String × PValue)) (k1 k2 : String) : Option PValue :=
  match pyOr (assocGet fields k1) (assocGet fields k2) with
  | some v => if pyTruthy v then some v else none
  | none => none

/-- Truncation toward zero, as Python `int(float)`. -/
def ratTrunc (q : Rat) : Int :=
  if 0 ≤ q then ⌊q⌋ else ⌈q⌉

/-- Whitespace as stripped by Python `str.strip()`. -/
def isPySpace (c : Char) : Bool :=
  c = ' ' || c = '\t' || c = '\n' || c = '\r' || c = '\x0b' || c = '\x0c'

/-- Model of `str.strip()`: drop leading and trailing whitespace. -/
def pyStrip (s : String) : String :=
  String.mk (((s.data.dropWhile isPySpace).reverse.dropWhile isPySpace).reverse)

/-- Model of `str.lower()` (ASCII case mapping suffices here). -/
def pyLower (s : String) : String :=
  String.mk (s.data.map Char.toLower)

/-- Accumulate a decimal digit string into a natural number; `none` on any
non-digit. -/
def digitsToNat : List Char → Nat → Option Nat
  | [], acc => some acc
  | c :: rest, acc =>
    if '0' ≤ c ∧ c ≤ '9' then digitsToNat rest (acc * 10 + (c.toNat - '0'.toNat))
    else none

/-- Parse a non-empty decimal digit list. -/
def parseNatList (cs : List Char) : Option Nat :=
  if cs.isEmpty then none else digitsToNat cs 0

/-- Model of Python `int(str)`: strip whitespace, then an optionally signed
digit string (underscore separators and non-ASCII digits are not
modelled). -/
def pyParseInt (s : String) : Option Int :=
  match (pyStrip s).data with
  | '-' :: rest => (parseNatList rest).map (fun n => -(n : Int))
  | '+' :: rest => (parseNatList rest).map (fun n => (n : Int))
  | cs => (parseNatList cs).map (fun n => (n : Int))

/-- Model of Python `float(str)` on plain decimal literals (exponents,
`inf`/`nan` and underscore separators are not modelled). -/
def pyParseFloat (s : String) : Option Rat :=
  let t := (pyStrip s).data
  let signedBody : Bool × List Char :=
    match t with
    | '-' :: rest => (true, rest)
    | '+' :: rest => (false, rest)
    | cs => (false, cs)
  let mag : Option Rat :=
    match splitChars '.' signedBody.snd with
    | [intPart] => (parseNatList intPart).map (fun n => (n : Rat))
    | [intPart, fracPart] =>
      if intPart.isEmpty && fracPart.isEmpty then none
      else
        match (if intPart.isEmpty then some 0 else parseNatList intPart),
              (if fracPart.isEmpty then some 0 else parseNatList fracPart) with
        | some n, some f => some ((n : Rat) + (f : Rat) / ((10 : Rat) ^ fracPart.length))
        | _, _ => none
    | _ => none
  match mag with
  | some q => some (if signedBody.fst then -q else q)
  | none => none

/-- Model of `int(value)` over a Python value: `none` is a raised
`TypeError`/`ValueError`. -/
def pyIntOf : PValue → Option Int
  | .vbool b => some (if b then 1 else 0)
  | .vint n => some n
  | .vfloat q => some (ratTrunc q)
  | .vstr s => pyParseInt s
  | _ => none

/-- Model of `float(value)` over a Python value. -/
def pyFloatOf : PValue → Option Rat
  | .vbool b => some (if b then 1 else 0)
  | .vint n => some (n : Rat)
  | .vfloat q => some q
  | .vstr s => pyParseFloat s
  | _ => none

/-- Model of `_coerce_positive_int`: `None` passes through, a failed coercion
is ignored (warning only), and non-positive results are dropped. -/
def coercePositiveInt : Option PValue → Option Int
  | none => none
  | some v =>
    match pyIntOf v with
    | none => none
    | some n => if 0 < n then some n else none

/-- Model of `_coerce_positive_float`. -/
def coercePositiveFloat : Option PValue → Option Rat
  | none => none
  | some v =>
    match pyFloatOf v with
    | none => none
    | some q => if 0 < q then some q else none

/-- The raw timeout parameter: `lookup("resultTimeoutSeconds") or
lookup("resultTimeout")`. -/
def timeoutRaw (params : List (String × PValue)) : Option PValue :=
  pyOr (lookupParam params "resultTimeoutSeconds") (lookupParam params "resultTimeout")

/-- The raw poll-interval parameter: `lookup("resultPollIntervalSeconds") or
lookup("resultPollInterval")`. -/
def pollRaw (params : List (String × PValue)) : Option PValue :=
  pyOr (lookupParam params "resultPollIntervalSeconds") (lookupParam params "resultPollInterval")

/-- Model of `_resolve_wait_parameters`: the normalized result format
(`none` for absent, non-string or unsupported values, which only warn) and
the keyword arguments actually passed to the wait call. -/
def resolveWaitParameters (params : List (String × PValue)) : Option String × WaitKwargs :=
  let normalized_format : Option String :=
    match lookupParam params "resultFormat" with
    | some (.vstr s) =>
      let candidate := pyLower (pyStrip s)
      if candidate = "json" ∨ candidate = "csv" ∨ candidate = "excel" then some candidate
      else none
    | _ => none
  let timeout := coercePositiveInt (timeoutRaw params)
  let poll_interval := coercePositiveFloat (pollRaw params)
  (normalized_format, ⟨timeout, poll_interval, normalized_format⟩)

/-- The `RuntimeError` message of a missing job identifier. -/
def missingGuidMsg : String := "Upload response missing guid"

/-- The `AttributeError` message raised when JSON-decoded response bytes are
not a dict (`payload.get` on a non-dict). -/
def guidAttrErrMsg : String := "object has no attribute \x27get\x27"

/-- Model of `_extract_guid`: the dict-shaped parsed body, the typed parsed
body's `guid` attribute, the response's own string `guid` attribute, then the
JSON-decoded raw bytes; a decode failure falls through to the final raise,
while a decoded non-dict raises `AttributeError` from `payload.get`. -/
def extractGuid (response : UploadResponse) : Except PyErr PValue :=
  match
    (match response.parsed with
     | some (.pdict fields) => truthyGuid fields "guid" "jobGuid"
     | _ => none) with
  | some g => .ok g
  | none =>
  match
    (match response.parsed with
     | some (.pobj (some v)) => if pyTruthy v then some v else none
     | _ => none) with
  | some g => .ok g
  | none =>
  match
    (match response.guid with
     | some (.vstr s) => if s ≠ "" then some (PValue.vstr s) else none
     | _ => none) with
  | some g => .ok g
  | none =>
    if bytesTruthy response.content then
      match parseJsonBytes response.content with
      | some (.vobj fields) =>
        match truthyGuid fields "guid" "jobGuid" with
        | some g => .ok g
        | none => .error (.runtimeError missingGuidMsg)
      | some _ => .error (.attributeError guidAttrErrMsg)
      | none => .error (.runtimeError missingGuidMsg)
    else .error (.runtimeError missingGuidMsg)

/-- Model of `_serialize_response`: the raw content (or a status stub) when
nothing was parsed, else the parsed body by shape. -/
def serializeResponse (response : ProcessResponse) : Bytes :=
  match response.parsed with
  | none =>
    let fallback : Bytes := .jsonOf (.vobj
      [("status", match response.status_code with
                  | some c => .vint c
                  | none => .vstr "unknown")])
    match response.content with
    | some b => if bytesTruthy b then b else fallback
    | none => fallback
  | some (.sbytes b) => b
  | some (.stodict fields) => .jsonOf (.vobj fields)
  | some (.sdict fields) => .jsonOf (.vobj fields)
  | some (.sother visible) =>
    .jsonOf (.vobj (visible.filter (fun kv => !(startsWithUnderscore kv.fst))))

/-- Model of `_serialize_result` by result shape. -/
def serializeResult (result : WaitResult) (result_format : Option String) : Bytes :=
  match result with
  | .wbytes b => b
  | .wstr s => .utf8 s
  | .wtodict fields => .jsonOf (.vobj fields)
  | .wdictlike v => .jsonOf v
  | .wobj visible => .jsonOf (.vobj (visible.filter (fun kv => !(startsWithUnderscore kv.fst))))
  | .wother v => .jsonOf v

/-- Model of `_resolve_output_descriptor`: extension and content type for the
requested result format. -/
def resolveOutputDescriptor (result_format : Option String) : String × String :=
  if result_format = some "csv" then ("csv", "text/csv")
  else if result_format = some "excel" then
    ("xlsx", "application/vnd.openxmlformats-officedocument.spreadsheetml.sheet")
  else ("json", "application/json")

/-- The `RuntimeError` message of a rejected processing submission. -/
def rejectedMsg (status : Int) (body : String) : String :=
  "DocuDevs process_document failed (" ++ ToString.toString status ++ "): " ++ body

/-- The `FileNotFoundError` message of a missing input document. -/
def blobMissingMsg (blob_name input_container : String) : String :=
  "Blob \x27" ++ blob_name ++ "\x27 not found in container \x27" ++ input_container ++ "\x27"

/-- The tail of `_upload_and_process` after the status check: derive the wait
parameters, issue the wait call, and serialize the result with its output
descriptor. -/
def waitAndSerialize (p : DocumentProcessor) (fields : List (String × PValue)) :
    Except PyErr (Bytes × String × String) :=
  let wp := resolveWaitParameters fields
  match p.client.wait_until_ready wp.snd with
  | .error m => .error (.externalError m)
  | .ok result =>
    let payload := serializeResult result wp.fst
    let descriptor := resolveOutputDescriptor wp.fst
    .ok (payload, descriptor.fst, descriptor.snd)

/-- Model of `_upload_and_process`: resolve the MIME type (raising
`AttributeError` when the configuration parameters are not a dict, as
`params.get` would), upload, extract the job identifier, submit the command,
reject on an error status, then wait and serialize. -/
def uploadAndProcess (p : DocumentProcessor) (blob_path : PPath)
    (document : StorageObject) (config : FolderConfiguration) :
    Except PyErr (Bytes × String × String) :=
  match config.params with
  | .vobj fields =>
    let mime_type := resolveMimeType fields document
    match p.client.upload_document ⟨document.data, blob_path.name, mime_type⟩ with
    | .error m => .error (.externalError m)
    | .ok upload_response =>
      match extractGuid upload_response with
      | .error e => .error e
      | .ok guid =>
        let upload_command := buildCommand fields config mime_type
        match p.client.process_document guid upload_command with
        | .error m => .error (.externalError m)
        | .ok process_response =>
          match process_response.status_code with
          | some status_code =>
            if 400 ≤ status_code then
              .error (.runtimeError
                (rejectedMsg status_code (bytesDecode (serializeResponse process_response))))
            else waitAndSerialize p fields
          | none => waitAndSerialize p fields
  | _ => .error (.attributeError "\x27object\x27 has no attribute \x27get\x27")

/-- The try-block body of `process_blob`: fetch the document, resolve the
folder configuration (threading the configuration-store cache), then run the
upload pipeline.  Returns the pipeline result and the configuration store as
left behind by `resolve`. -/
def processBlobCore (p : DocumentProcessor) (blob_name : String) :
    Except PyErr (Bytes × String × String) × ConfigurationStore :=
  let blob_path := parsePath blob_name
  match p.storage p.input_container blob_path.toString with
  | none => (.error (.fileNotFound (blobMissingMsg blob_name p.input_container)), p.config_store)
  | some document =>
    let folder := blob_path.parent
    match resolve p.config_store folder with
    | (.error e, store') => (.error e, store')
    | (.ok config, store') => (uploadAndProcess p blob_path document config, store')

/-- Model of `_write_failure`: the persisted error artifact. -/
def writeFailure (p : DocumentProcessor) (blob_name : String) (e : PyErr) : PutRecord :=
  ⟨p.output_container, blob_name ++ ".error.json",
   .jsonOf (.vobj [("status", .vstr "error"), ("message", .vstr (errMessage e))]),
   "application/json", p.fresh_etag⟩

/-- Model of `_write_success`. -/
def writeSuccess (p : DocumentProcessor) (blob_name : String)
    (payload : Bytes) (extension content_type : String) : PutRecord :=
  ⟨p.output_container, blob_name ++ "." ++ extension, payload, content_type, p.fresh_etag⟩

/-- Model of `DocumentProcessor.process_blob`: the try-block runs the
pipeline; any modelled exception is caught, persisted as a failure artifact
and converted into `FAILURE`.  Returns the outcome, the single artifact
written, and the configuration store left behind. -/
def process_blob (p : DocumentProcessor) (blob_name : String) :
    ProcessingOutcome × PutRecord × ConfigurationStore :=
  match processBlobCore p blob_name with
  | (.ok (payload, extension, content_type), store') =>
    (.SUCCESS, writeSuccess p blob_name payload extension content_type, store')
  | (.error e, store') =>
    (.FAILURE, writeFailure p blob_name e, store')

/-- The ancestor chain of the spec: the folder, then each ancestor up to and
including the root, most-specific first.  Structured on fuel
(`components.length + 1` always suffices, supplied by `ascendChain`). -/
def ascendChainFuel : Nat → PPath → List PPath
  | 0, _ => []
  | fuel + 1, p =>
    if p.components.isEmpty then [p] else p :: ascendChainFuel fuel p.parent

/-- Modelled from the spec: `resolve` "walks the folder and each of its
ancestors, from most-specific to root" — the reference ancestor chain. -/
def ascendChain (p : PPath) : List PPath :=
  ascendChainFuel (p.components.length + 1) p

/-- Modelled from the spec: the result of "attempting `build` at each
candidate and returning the first success", where only a `NotFound`
(`FileNotFoundError`) failure moves on to the next candidate, every attempt
made against the same store state. -/
def firstBuildResult (st : ConfigurationStore) (msg : String) :
    List PPath → Except PyErr FolderConfiguration
  | [] => .error (.fileNotFound msg)
  | c :: rest =>
    match (build st c).fst with
    | .error (.fileNotFound _) => firstBuildResult st msg rest
    | r => r

/-- Whether a build attempt failed with `FileNotFoundError`, the only error
`resolve` skips. -/
def isFileNotFound : Except PyErr FolderConfiguration → Bool
  | .error (.fileNotFound _) => true
  | _ => false

/-- A failed `build` leaves the store (in particular its cache) unchanged. -/
lemma build_snd_of_error {st : ConfigurationStore} {f : PPath} {e : PyErr}
    (h : (build st f).fst = .error e) : (build st f).snd = st := by
  unfold build at h ⊢
  cases hc : st.cache (normalizeFolder f).toString with
  | some cached => simp [hc] at h
  | none =>
    cases hb : buildFresh st (normalizeFolder f) with
    | ok config => simp [hc, hb] at h
    | error e' => simp [hc, hb]

/-- On a cache miss, `build` returns exactly the fresh three-file/consolidated
read result. -/
lemma build_fst_of_miss {st : ConfigurationStore} {f : PPath}
    (h : st.cache (normalizeFolder f).toString = none) :
    (build st f).fst = buildFresh st (normalizeFolder f) := by
  unfold build
  cases hb : buildFresh st (normalizeFolder f) with
  | ok config => simp [h, hb]
  | error e => simp [h, hb]

/-- A fresh build labels the configuration with the folder it read. -/
lemma buildFresh_ok_source {st : ConfigurationStore} {fp : PPath}
    {cfg : FolderConfiguration} (h : buildFresh st fp = .ok cfg) :
    cfg.source_folder = fp := by
  unfold buildFresh at h
  repeat' split at h
  all_goals simp_all
  all_goals (cases h; rfl)

/-- The state-threading resolve loop computes the stateless first-success
fold: failed attempts do not disturb the store, so every attempt runs
against the original state. -/
lemma resolveGo_fst (msg : String) :
    ∀ (l : List PPath) (st : ConfigurationStore),
      (resolveGo msg st l).fst = firstBuildResult st msg l := by
  intro l
  induction l with
  | nil => intro st; rfl
  | cons c rest ih =>
    intro st
    rcases hb : build st c with ⟨res, st'⟩
    have hfst : (build st c).fst = res := by rw [hb]
    cases res with
    | ok cfg => simp [resolveGo, firstBuildResult, hb, hfst]
    | error e =>
      have hst : st' = st := by
        have := @build_snd_of_error st c e hfst
        rw [hb] at this
        exact this
      cases e with
      | fileNotFound m =>
        simp [resolveGo, firstBuildResult, hb, hfst, hst, ih]
      | valueError m => simp [resolveGo, firstBuildResult, hb, hfst]
      | attributeError m => simp [resolveGo, firstBuildResult, hb, hfst]
      | jsonDecodeError => simp [resolveGo, firstBuildResult, hb, hfst]
      | runtimeError m => simp [resolveGo, firstBuildResult, hb, hfst]
      | externalError m => simp [resolveGo, firstBuildResult, hb, hfst]

/-- Skipped-over candidates: when every build in a prefix fails with
`FileNotFoundError`, the first-success fold continues past it. -/
lemma firstBuildResult_append_skip (st : ConfigurationStore) (msg : String) :
    ∀ (l₁ l₂ : List PPath),
      (∀ c ∈ l₁, isFileNotFound (build st c).fst = true) →
      firstBuildResult st msg (l₁ ++ l₂) = firstBuildResult st msg l₂ := by
  intro l₁
  induction l₁ with
  | nil => intro l₂ _; rfl
  | cons c rest ih =>
    intro l₂ hall
    have hc := hall c (by simp)
    unfold isFileNotFound at hc
    have hrest : ∀ x ∈ rest, isFileNotFound (build st x).fst = true := by
      intro x hx
      exact hall x (by simp [hx])
    cases hres : (build st c).fst with
    | ok cfg => rw [hres] at hc; simp at hc
    | error e =>
      cases e with
      | fileNotFound m =>
        simp only [List.cons_append, firstBuildResult, hres]
        exact ih l₂ hrest
      | valueError m => rw [hres] at hc; simp at hc
      | attributeError m => rw [hres] at hc; simp at hc
      | jsonDecodeError => rw [hres] at hc; simp at hc
      | runtimeError m => rw [hres] at hc; simp at hc
      | externalError m => rw [hres] at hc; simp at hc

/-- A string with an empty character list is the empty string. -/
lemma str_of_data_nil (s : String) (h : s.data = []) : s = "" := by
  cases s with
  | mk d =>
    simp only at h
    subst h
    rfl

/-- A non-empty string has positive length. -/
lemma str_length_pos {s : String} (h : s ≠ "") : 0 < s.length := by
  have hd : s.data ≠ [] := fun hnil => h (str_of_data_nil s hnil)
  exact List.length_pos.mpr hd

/-- Joined length of a non-empty component list: each component contributes
its length plus one separator slot. -/
lemma compsString_length_succ :
    ∀ cs : List String, cs ≠ [] →
      (compsString cs).length + 1 = (cs.map (fun c => c.length + 1)).sum := by
  intro cs
  induction cs with
  | nil => intro h; exact absurd rfl h
  | cons c rest ih =>
    intro _
    cases rest with
    | nil => simp [compsString]
    | cons d ds =>
      have h2 := ih (by simp)
      have hcc : compsString (c :: d :: ds) = c ++ "/" ++ compsString (d :: ds) := rfl
      rw [hcc, String.length_append, String.length_append]
      have hs : ("/" : String).length = 1 := rfl
      rw [hs]
      simp only [List.map_cons, List.sum_cons] at h2 ⊢
      omega

/-- Every parsed path is valid: components are non-empty and never `"."`. -/
lemma parsePath_valid (s : String) : (parsePath s).Valid := by
  intro c hc
  simp only [parsePath, List.mem_filter] at hc
  have h2 := hc.2
  simp only [Bool.and_eq_true, bne_iff_ne, ne_eq, decide_eq_true_eq] at h2
  exact ⟨by simpa using h2.1, by simpa using h2.2⟩

/-- Normalization of a parsed string yields a valid path. -/
lemma normS_valid (s : String) : (normS s).Valid := by
  unfold normS normalizeFolder
  split
  · intro c hc
    simp at hc
  · exact parsePath_valid s

/-- Validity is preserved by `parent`. -/
lemma PPath.Valid.parent {p : PPath} (h : p.Valid) : p.parent.Valid := by
  intro c hc
  exact h c (List.dropLast_subset _ hc)

/-- Key of a valid non-root path: never the empty string and never `"."`. -/
lemma valid_key_ne {p : PPath} (hv : p.Valid) (hne : p.components ≠ []) :
    p.toString ≠ "" ∧ p.toString ≠ "." := by
  cases p with
  | mk abs comps =>
    cases habs : abs with
    | true =>
      have hdata : (PPath.toString ⟨true, comps⟩).data = '/' :: (compsString comps).data := by
        simp [PPath.toString, String.data_append]
      constructor
      · intro h
        have := congrArg String.data h
        rw [hdata] at this
        simp at this
      · intro h
        have := congrArg String.data h
        rw [hdata] at this
        have : '/' = '.' := by
          have hh := congrArg List.head? this
          simpa using hh
        simp at this
    | false =>
      simp only at hne
      have hts : PPath.toString ⟨false, comps⟩ = compsString comps := by
        simp [PPath.toString, List.isEmpty_iff, hne]
      cases comps with
      | nil => exact absurd rfl hne
      | cons c rest =>
        cases rest with
        | nil =>
          have hc := hv c (by simp)
          rw [hts]
          simp only [compsString]
          exact hc
        | cons d ds =>
          have hlen : 2 ≤ (compsString (c :: d :: ds)).length := by
            have h1 := compsString_length_succ (c :: d :: ds) (by simp)
            have hc : c ≠ "" := (hv c (by simp)).1
            have hd : d ≠ "" := (hv d (by simp)).1
            have hcl := str_length_pos hc
            have hdl := str_length_pos hd
            simp only [List.map_cons, List.sum_cons] at h1
            omega
          rw [hts]
          constructor
          · intro h
            have := congrArg String.length h
            simp at this
            omega
          · intro h
            have := congrArg String.length h
            have hdot : ("." : String).length = 1 := by decide
            rw [hdot] at this
            omega

/-- Sum of a mapped list split at its last element. -/
lemma map_sum_dropLast (f : String → Nat) (cs : List String) (h : cs ≠ []) :
    (cs.map f).sum = (cs.dropLast.map f).sum + f (cs.getLast h) := by
  conv_lhs => rw [← List.dropLast_append_getLast h]
  simp

/-- Rendering of a non-root relative path. -/
lemma toString_rel_ne (comps : List String) (h : comps ≠ []) :
    (PPath.mk false comps).toString = compsString comps := by
  simp [PPath.toString, h]

/-- Rendering of an absolute path. -/
lemma toString_abs (comps : List String) :
    (PPath.mk true comps).toString = "/" ++ compsString comps := by
  simp [PPath.toString]

/-- Length of an absolute path's rendering. -/
lemma toString_abs_length (comps : List String) :
    (PPath.mk true comps).toString.length = 1 + (compsString comps).length := by
  rw [toString_abs, String.length_append]
  rw [show ("/" : String).length = 1 from rfl]

/-- The join of a valid non-empty component list is non-empty. -/
lemma compsString_length_pos (cs : List String) (h : cs ≠ [])
    (hv : ∀ c ∈ cs, c ≠ "") : 0 < (compsString cs).length := by
  cases cs with
  | nil => exact absurd rfl h
  | cons c rest =>
    have h1 := compsString_length_succ (c :: rest) (by simp)
    have hc := str_length_pos (hv c (by simp))
    simp only [List.map_cons, List.sum_cons] at h1
    omega

/-- Ascending one level strictly shortens the key, as long as the parent is
not the root. -/
lemma parent_key_lt {p : PPath} (hv : p.Valid)
    (hpne : p.parent.components ≠ []) :
    p.parent.toString.length < p.toString.length := by
  cases p with
  | mk abs comps =>
    have hne : comps ≠ [] := by
      intro hc
      subst hc
      simp [PPath.parent] at hpne
    have hdl : comps.dropLast ≠ [] := by
      simpa [PPath.parent] using hpne
    have hsum := map_sum_dropLast (fun c => c.length + 1) comps hne
    have h1 := compsString_length_succ comps hne
    have h2 := compsString_length_succ comps.dropLast hdl
    have hpar : (PPath.mk abs comps).parent = PPath.mk abs comps.dropLast := rfl
    cases abs with
    | false =>
      rw [hpar, toString_rel_ne _ hdl, toString_rel_ne _ hne]
      simp only at hsum
      omega
    | true =>
      rw [hpar, toString_abs_length, toString_abs_length]
      simp only at hsum
      omega

/-- The root's key (`"."` or `"/"`) has length one. -/
lemma root_key_length (abs : Bool) : (PPath.mk abs []).toString.length = 1 := by
  cases abs <;> rfl

/-- Ascending one level never lengthens the key. -/
lemma parent_key_le {p : PPath} (hv : p.Valid) (hne : p.components ≠ []) :
    p.parent.toString.length ≤ p.toString.length := by
  by_cases hdl : p.parent.components = []
  · have hroot : p.parent = PPath.mk p.absolute [] := by
      cases p with
      | mk abs comps =>
        simp only [PPath.parent] at hdl ⊢
        rw [hdl]
    rw [hroot, root_key_length]
    exact str_length_pos (valid_key_ne hv hne).1
  · exact Nat.le_of_lt (parent_key_lt hv hdl)

/-- Every key on the ancestor chain is at most as long as the starting key. -/
lemma key_le_on_chain :
    ∀ (fuel : Nat) (q : PPath), q.Valid → q.components.length < fuel →
      ∀ r ∈ ascendChainFuel fuel q, r.toString.length ≤ q.toString.length := by
  intro fuel
  induction fuel with
  | zero => intro q _ h; omega
  | succ f ih =>
    intro q hv hlen r hr
    by_cases hq : q.components = []
    · have : ascendChainFuel (f + 1) q = [q] := by
        simp [ascendChainFuel, hq]
      rw [this] at hr
      simp at hr
      subst hr
      exact Nat.le_refl _
    · have hchain : ascendChainFuel (f + 1) q = q :: ascendChainFuel f q.parent := by
        simp [ascendChainFuel, hq]
      rw [hchain] at hr
      rcases List.mem_cons.mp hr with hr | hr
      · subst hr; exact Nat.le_refl _
      · have hplen : q.parent.components.length < f := by
          have : q.components.length ≥ 1 := by
            cases hcq : q.components with
            | nil => exact absurd hcq hq
            | cons a rest => simp [hcq]
          simp only [PPath.parent, List.length_dropLast]
          omega
        have hrle := ih q.parent hv.parent hplen r hr
        exact Nat.le_trans hrle (parent_key_le hv hq)

/-- The key of a valid non-root path never occurs on its strict ancestor
chain. -/
lemma key_notin_ancestors {p : PPath} (hv : p.Valid) (hne : p.components ≠ []) :
    ∀ (fuel : Nat), p.parent.components.length < fuel →
      ∀ r ∈ ascendChainFuel fuel p.parent, r.toString ≠ p.toString := by
  intro fuel hflen r hr
  by_cases hdl : p.parent.components = []
  · have hchain : ascendChainFuel fuel p.parent = [p.parent] := by
      cases fuel with
      | zero => omega
      | succ f => simp [ascendChainFuel, hdl]
    rw [hchain] at hr
    simp at hr
    subst hr
    have hroot : p.parent = PPath.mk p.absolute [] := by
      cases p with
      | mk abs comps =>
        simp only [PPath.parent] at hdl ⊢
        rw [hdl]
    rw [hroot]
    cases habs : p.absolute with
    | false =>
      intro hEq
      have h1 : (PPath.mk false []).toString = "." := rfl
      rw [h1] at hEq
      exact (valid_key_ne hv hne).2 hEq.symm
    | true =>
      intro hEq
      have hlen := congrArg String.length hEq
      rw [root_key_length] at hlen
      have habs2 : p = PPath.mk true p.components := by
        cases p with
        | mk a c => simp only at habs; rw [habs]
      rw [habs2, toString_abs_length] at hlen
      have hpos := compsString_length_pos p.components hne (fun c hc => (hv c hc).1)
      omega
  · intro hEq
    have hrle := key_le_on_chain fuel p.parent hv.parent hflen r hr
    have hlt := parent_key_lt hv hdl
    have := congrArg String.length hEq
    omega

/-- The `seen` set of the source's candidate generator never suppresses a
yield on a valid path: ancestor keys strictly shorten (or end at the root
key, which a valid non-root key never equals), so the generated ascent equals
the reference ancestor chain. -/
lemma caf_eq_acf :
    ∀ (fuel : Nat) (p : PPath) (seen : List String),
      p.components.length < fuel → p.Valid →
      (∀ r ∈ ascendChainFuel fuel p, r.toString ∉ seen) →
      candidateAscentFuel fuel p seen = ascendChainFuel fuel p := by
  intro fuel
  induction fuel with
  | zero => intro p _ h; omega
  | succ f ih =>
    intro p seen hlen hv hseen
    by_cases hq : p.components = []
    · have hchain : ascendChainFuel (f + 1) p = [p] := by
        simp [ascendChainFuel, hq]
      have hkey : p.toString ∉ seen := by
        apply hseen
        rw [hchain]
        simp
      have hpar : p.parent = p := (PPath.parent_eq_self_iff p).mpr hq
      rw [hchain]
      simp [candidateAscentFuel, hkey, hpar]
    · have hchain : ascendChainFuel (f + 1) p = p :: ascendChainFuel f p.parent := by
        simp [ascendChainFuel, hq]
      have hkey : p.toString ∉ seen := by
        apply hseen
        rw [hchain]
        simp
      have hpar : ¬ p.parent = p := fun hc => hq ((PPath.parent_eq_self_iff p).mp hc)
      have hkq := valid_key_ne hv hq
      have hplen : p.parent.components.length < f := by
        have hpos : 1 ≤ p.components.length := by
          cases hcq : p.components with
          | nil => exact absurd hcq hq
          | cons a rest => simp [hcq]
        simp only [PPath.parent, List.length_dropLast]
        omega
      have hseen' : ∀ r ∈ ascendChainFuel f p.parent, r.toString ∉ p.toString :: seen := by
        intro r hr
        simp only [List.mem_cons, not_or]
        constructor
        · exact key_notin_ancestors hv hq f hplen r hr
        · apply hseen
          rw [hchain]
          exact List.mem_cons_of_mem _ hr
      have hrec := ih p.parent (p.toString :: seen) hplen hv.parent hseen'
      rw [hchain]
      simp only [candidateAscentFuel, hkey, if_neg hpar, hkq.1, hkq.2]
      simp [hrec]

/-- On a valid path, the source's candidate ascent equals the reference
ancestor chain. -/
lemma candidateAscent_eq_ascendChain {p : PPath} (hv : p.Valid) :
    candidateAscent p [] = ascendChain p := by
  unfold candidateAscent ascendChain
  exact caf_eq_acf (p.components.length + 1) p [] (by omega) hv (by simp)

/-- C2 (amended): for every folder whose normalized key has no cache entry,
`build` resolves in this order — a present `config.json` is used exclusively
(the result depends only on its payload and tag), an object payload lacking
`params` fails with the `InvalidConfig` `ValueError`, and its version-tag map
records only `config.json`; otherwise `params.json` is required (failing with
the `NotFound` `FileNotFoundError` when absent), `schema.json` and
`metadata.json` are read independently as optional, and the version-tag map
records exactly the files actually present. -/
theorem c2_build_resolution_order (st : ConfigurationStore) (s : String)
    (hmiss : st.cache (normS s).toString = none) :
    (∀ fields etag,
       readJson st (normS s) "config.json" = .ok (some (.vobj fields, etag)) →
       pyGet fields "params" = none →
       (buildS st s).fst = .error (.valueError
         ("config.json for " ++ (normS s).toString ++ " missing \x27params\x27")))
  ∧ (∀ fields etag pv,
       readJson st (normS s) "config.json" = .ok (some (.vobj fields, etag)) →
       pyGet fields "params" = some pv →
       (buildS st s).fst = .ok ⟨pv, normS s, pyGet fields "schema", pyGet fields "metadata",
                                 [("config.json", etag)]⟩)
  ∧ (readJson st (normS s) "config.json" = .ok none →
     readJson st (normS s) "params.json" = .ok none →
     (buildS st s).fst = .error (.fileNotFound
       ("Missing params.json under " ++ (normS s).toString)))
  ∧ (∀ pv petag sR mR,
       readJson st (normS s) "config.json" = .ok none →
       readJson st (normS s) "params.json" = .ok (some (pv, petag)) →
       readJson st (normS s) "schema.json" = .ok sR →
       readJson st (normS s) "metadata.json" = .ok mR →
       (buildS st s).fst = .ok ⟨pv, normS s, optPayload sR, optPayload mR,
         ("params.json", petag)
           :: (etagEntries "schema.json" sR ++ etagEntries "metadata.json" mR)⟩) := by
  have hb : (buildS st s).fst = buildFresh st (normS s) := build_fst_of_miss hmiss
  refine ⟨?_, ?_, ?_, ?_⟩
  · intro fields etag hcfg hparams
    rw [hb]
    unfold buildFresh
    rw [hcfg]
    simp [hparams]
  · intro fields etag pv hcfg hparams
    rw [hb]
    unfold buildFresh
    rw [hcfg]
    simp [hparams]
  · intro hcfg hparams
    rw [hb]
    unfold buildFresh
    rw [hcfg, hparams]
  · intro pv petag sR mR hcfg hparams hschema hmeta
    rw [hb]
    unfold buildFresh
    rw [hcfg, hparams, hschema, hmeta]

/-- Storage contents for the C2 counterexample: folder `f` holds a
`config.json` whose object payload lacks `params`. -/
def c2Storage : String → String → Option StorageObject := fun c n =>
  if c = "in" ∧ n = "f/config.json" then
    some ⟨.jsonOf (.vobj [("schema", .vstr "s")]), "application/json", "etag-cfg"⟩
  else none

/-- A stale cache entry for folder `f`, unrelated to the stored files. -/
def c2Cached : FolderConfiguration :=
  ⟨.vstr "stale", parsePath "f", none, none, [("params.json", "old")]⟩

/-- A configuration store whose cache already holds an entry for `f`. -/
def c2Store : ConfigurationStore :=
  ⟨c2Storage, "in", parsePath "__default__",
   fun k => if k = "f" then some c2Cached else none⟩

/-- C2 counterexample: `config.json` exists at `f` and lacks a `params`
field, yet `build("f")` succeeds with the cached configuration instead of
failing with `InvalidConfig` — refuting the claim as stated for cached
folders. -/
theorem c2_counterexample :
    readJson c2Store (normS "f") "config.json"
      = .ok (some (.vobj [("schema", .vstr "s")], "etag-cfg"))
    ∧ pyGet [("schema", .vstr "s")] "params" = none
    ∧ (buildS c2Store "f").fst = .ok c2Cached
    ∧ c2Cached.params = .vstr "stale" :=
  ⟨rfl, rfl, rfl, rfl⟩

/-- C2 witness: a concrete cache-miss store exercising the consolidated
branch of the theorem. -/
def c2WitnessStore : ConfigurationStore :=
  mkConfigurationStore
    (fun c n =>
      if c = "in" ∧ n = "f/config.json" then
        some ⟨.jsonOf (.vobj [("params", .vobj [("prompt", .vstr "hi")])]),
              "application/json", "etag-c"⟩
      else none)
    "in" "__default__"

/-- Witness for C2: at a concrete cache-miss store with a valid consolidated
file, the theorem computes the exact configuration. -/
theorem c2_build_resolution_order_witness :
    (buildS c2WitnessStore "f").fst =
      .ok ⟨.vobj [("prompt", .vstr "hi")], normS "f", none, none,
           [("config.json", "etag-c")]⟩ :=
  (c2_build_resolution_order c2WitnessStore "f" rfl).2.1
    [("params", .vobj [("prompt", .vstr "hi")])] "etag-c"
    (.vobj [("prompt", .vstr "hi")]) rfl rfl

/-- The first-success fold returns the loop's own `NotFound` error exactly
when every candidate's build failed with `FileNotFoundError`. -/
lemma firstBuildResult_notFound_iff (st : ConfigurationStore) (msg : String) :
    ∀ l : List PPath,
      (firstBuildResult st msg l = .error (.fileNotFound msg)
        ↔ ∀ c ∈ l, isFileNotFound (build st c).fst = true) := by
  intro l
  induction l with
  | nil => simp [firstBuildResult]
  | cons c rest ih =>
    cases hres : (build st c).fst with
    | ok cfg =>
      simp only [firstBuildResult, hres]
      constructor
      · intro h; cases h
      · intro h
        have h2 := h c (by simp)
        simp [isFileNotFound, hres] at h2
    | error e =>
      cases e with
      | fileNotFound m =>
        simp only [firstBuildResult, hres]
        rw [ih]
        constructor
        · intro h x hx
          rcases List.mem_cons.mp hx with hx | hx
          · subst hx
            simp [isFileNotFound, hres]
          · exact h x hx
        · intro h x hx
          exact h x (List.mem_cons_of_mem _ hx)
      | valueError m =>
        simp only [firstBuildResult, hres]
        constructor
        · intro h; cases h
        · intro h
          have h2 := h c (by simp)
          simp [isFileNotFound, hres] at h2
      | attributeError m =>
        simp only [firstBuildResult, hres]
        constructor
        · intro h; cases h
        · intro h
          have h2 := h c (by simp)
          simp [isFileNotFound, hres] at h2
      | jsonDecodeError =>
        simp only [firstBuildResult, hres]
        constructor
        · intro h; cases h
        · intro h
          have h2 := h c (by simp)
          simp [isFileNotFound, hres] at h2
      | runtimeError m =>
        simp only [firstBuildResult, hres]
        constructor
        · intro h; cases h
        · intro h
          have h2 := h c (by simp)
          simp [isFileNotFound, hres] at h2
      | externalError m =>
        simp only [firstBuildResult, hres]
        constructor
        · intro h; cases h
        · intro h
          have h2 := h c (by simp)
          simp [isFileNotFound, hres] at h2

/-- `resolve` computes the stateless first-success fold over its candidate
list. -/
lemma resolveS_fst (st : ConfigurationStore) (s : String) :
    (resolveS st s).fst =
      firstBuildResult st (noConfigMsg (normS s)) (candidate_folders st (normS s)) := by
  unfold resolveS resolve
  exact resolveGo_fst _ _ _

/-- C3: `resolve` computes the first-success fold over its candidates, all
attempts made against the original store; the candidate list is the folder's
ancestor chain (most-specific to root) followed by the default folder, which
is always retried; it fails with the loop's `NotFound` error exactly when
every attempt fails with `NotFound`; and when every ancestor misses while the
default folder builds (uncached), the returned configuration's source folder
is the default folder. -/
theorem c3_resolve_fallback_chain (st : ConfigurationStore) (s : String) :
    (resolveS st s).fst =
      firstBuildResult st (noConfigMsg (normS s)) (candidate_folders st (normS s))
  ∧ candidate_folders st (normS s) = ascendChain (normS s) ++ [st.defaultFolder]
  ∧ (∀ cfg, (∀ c ∈ ascendChain (normS s), isFileNotFound (build st c).fst = true) →
       (build st st.defaultFolder).fst = .ok cfg →
       (resolveS st s).fst = .ok cfg)
  ∧ ((resolveS st s).fst = .error (.fileNotFound (noConfigMsg (normS s)))
       ↔ ∀ c ∈ candidate_folders st (normS s), isFileNotFound (build st c).fst = true)
  ∧ (∀ cfg, st.cache ((normalizeFolder st.defaultFolder).toString) = none →
       (build st st.defaultFolder).fst = .ok cfg →
       cfg.source_folder = normalizeFolder st.defaultFolder) := by
  have hchain : candidate_folders st (normS s) = ascendChain (normS s) ++ [st.defaultFolder] := by
    unfold candidate_folders
    rw [candidateAscent_eq_ascendChain (normS_valid s)]
  refine ⟨resolveS_fst st s, hchain, ?_, ?_, ?_⟩
  · intro cfg hall hdef
    rw [resolveS_fst st s, hchain,
        firstBuildResult_append_skip st (noConfigMsg (normS s)) _ _ hall]
    simp [firstBuildResult, hdef]
  · rw [resolveS_fst st s]
    exact firstBuildResult_notFound_iff st (noConfigMsg (normS s)) _
  · intro cfg hmiss hdef
    rw [build_fst_of_miss hmiss] at hdef
    exact buildFresh_ok_source hdef

/-- The store of the spec's default-fallback scenario: only the default
folder `__default__` carries configuration. -/
def c3Store : ConfigurationStore :=
  mkConfigurationStore
    (fun c n =>
      if c = "in" ∧ n = "__default__/params.json" then
        some ⟨.jsonOf (.vobj [("prompt", .vstr "fallback")]), "application/json", "etag-default"⟩
      else none)
    "in" "__default__"

/-- The configuration the default folder of `c3Store` builds to. -/
def c3DefaultCfg : FolderConfiguration :=
  ⟨.vobj [("prompt", .vstr "fallback")], parsePath "__default__", none, none,
   [("params.json", "etag-default")]⟩

/-- Witness for C3: resolving `a/b` over a hierarchy where only the default
folder has configuration returns the default configuration, whose source
folder is the default folder. -/
theorem c3_resolve_fallback_chain_witness :
    (resolveS c3Store "a/b").fst = .ok c3DefaultCfg
    ∧ c3DefaultCfg.source_folder = normalizeFolder c3Store.defaultFolder :=
  ⟨(c3_resolve_fallback_chain c3Store "a/b").2.2.1 c3DefaultCfg (by decide) (by rfl),
   (c3_resolve_fallback_chain c3Store "a/b").2.2.2.2 c3DefaultCfg rfl (by rfl)⟩

/-- C10: `resolve` skips only `NotFound` failures — when the candidates up to
some point all miss and that candidate's build fails with the `InvalidConfig`
`ValueError` (a present `config.json` lacking `params`), `resolve` propagates
that error immediately instead of trying the remaining candidates. -/
theorem c10_resolve_propagates_invalid_config (st : ConfigurationStore) (s : String)
    (pre : List PPath) (c : PPath) (post : List PPath) (m : String)
    (hsplit : candidate_folders st (normS s) = pre ++ c :: post)
    (hpre : ∀ x ∈ pre, isFileNotFound (build st x).fst = true)
    (hc : (build st c).fst = .error (.valueError m)) :
    (resolveS st s).fst = .error (.valueError m) := by
  rw [resolveS_fst st s, hsplit,
      firstBuildResult_append_skip st (noConfigMsg (normS s)) _ _ hpre]
  simp [firstBuildResult, hc]

/-- The C10 witness store: `a/b` has nothing, `a` has a `config.json` lacking
`params`, and the default folder has a perfectly good `params.json` that must
never be reached. -/
def c10Store : ConfigurationStore :=
  mkConfigurationStore
    (fun cont n =>
      if cont = "in" ∧ n = "a/config.json" then
        some ⟨.jsonOf (.vobj [("schema", .vstr "s")]), "application/json", "etag-a"⟩
      else if cont = "in" ∧ n = "__default__/params.json" then
        some ⟨.jsonOf (.vobj [("prompt", .vstr "fallback")]), "application/json", "etag-d"⟩
      else none)
    "in" "__default__"

/-- Witness for C10: resolving `a/b` over `c10Store` stops at folder `a` with
the `InvalidConfig` error even though the default folder would build. -/
theorem c10_resolve_propagates_invalid_config_witness :
    (resolveS c10Store "a/b").fst =
      .error (.valueError "config.json for a missing \x27params\x27") :=
  c10_resolve_propagates_invalid_config c10Store "a/b"
    [⟨false, ["a", "b"]⟩] ⟨false, ["a"]⟩ [⟨false, []⟩, ⟨false, ["__default__"]⟩]
    "config.json for a missing \x27params\x27"
    (by decide) (by decide) (by rfl)

/-- C5: `invalidate` removes exactly the folder's cache entry — any folder
with a different normalized key keeps its entry, and storage is untouched —
and a subsequent `build` of that folder returns the fresh file-read result
computed from the current storage contents, independent of whatever was
cached before. -/
theorem c5_invalidate_frame (st : ConfigurationStore) (f g : String) :
    (invalidateS st f).cache (normS f).toString = none
  ∧ ((normS g).toString ≠ (normS f).toString →
       (invalidateS st f).cache (normS g).toString = st.cache (normS g).toString)
  ∧ (invalidateS st f).storage = st.storage
  ∧ (buildS (invalidateS st f) f).fst = buildFresh st (normS f) := by
  refine ⟨?_, ?_, rfl, ?_⟩
  · simp [invalidateS, invalidate, normS]
  · intro hne
    simp only [normS] at hne ⊢
    simp [invalidateS, invalidate, hne]
  · have hmiss : (invalidateS st f).cache (normalizeFolder (parsePath f)).toString = none := by
      simp [invalidateS, invalidate, normS]
    exact build_fst_of_miss hmiss

/-- A concrete store with cache entries for `a/b` and `a/c` and for the
default folder. -/
def c5Store : ConfigurationStore :=
  ⟨fun _ _ => none, "in", parsePath "__default__",
   fun k =>
     if k = "a/b" then some ⟨.vstr "one", parsePath "a/b", none, none, []⟩
     else if k = "a/c" then some ⟨.vstr "two", parsePath "a/c", none, none, []⟩
     else if k = "a" then some ⟨.vstr "up", parsePath "a", none, none, []⟩
     else none⟩

/-- Witness for C5: invalidating `a/b` empties exactly its entry and leaves
the sibling `a/c` and the ancestor `a` untouched. -/
theorem c5_invalidate_frame_witness :
    (invalidateS c5Store "a/b").cache (normS "a/b").toString = none
    ∧ (invalidateS c5Store "a/b").cache (normS "a/c").toString
        = c5Store.cache (normS "a/c").toString
    ∧ (invalidateS c5Store "a/b").cache (normS "a").toString
        = c5Store.cache (normS "a").toString :=
  ⟨(c5_invalidate_frame c5Store "a/b" "a/c").1,
   (c5_invalidate_frame c5Store "a/b" "a/c").2.1 (by decide),
   (c5_invalidate_frame c5Store "a/b" "a").2.1 (by decide)⟩

/-- C9: a folder whose normalized key has a cache entry is served from the
cache: `build` returns the cached configuration, leaves the store unchanged,
and does so whatever the storage contents are — file changes are invisible to
`build` until `invalidate`. -/
theorem c9_build_cache_hit (st : ConfigurationStore) (s : String)
    (cfg : FolderConfiguration) (h : st.cache (normS s).toString = some cfg) :
    ∀ storageF : String → String → Option StorageObject,
      buildS { st with storage := storageF } s =
        (.ok cfg, { st with storage := storageF }) := by
  intro storageF
  unfold buildS build
  have h2 : st.cache (normalizeFolder (parsePath s)).toString = some cfg := h
  simp [h2]

/-- A store caching a configuration for `f` while the underlying file says
otherwise. -/
def c9Store : ConfigurationStore :=
  ⟨fun c n =>
     if c = "in" ∧ n = "f/params.json" then
       some ⟨.jsonOf (.vobj [("prompt", .vstr "new")]), "application/json", "etag-new"⟩
     else none,
   "in", parsePath "__default__",
   fun k => if k = "f" then some ⟨.vstr "cached", parsePath "f", none, none, []⟩ else none⟩

/-- Witness for C9: with an entry cached for `f`, `build` returns it
unchanged even against an empty storage map. -/
theorem c9_build_cache_hit_witness :
    buildS { c9Store with storage := fun _ _ => none } "f" =
      (.ok ⟨.vstr "cached", parsePath "f", none, none, []⟩,
       { c9Store with storage := fun _ _ => none }) :=
  c9_build_cache_hit c9Store "f" ⟨.vstr "cached", parsePath "f", none, none, []⟩ rfl
    (fun _ _ => none)

/-- An empty storage map and store used to exercise the consolidated write. -/
def c4Store : ConfigurationStore :=
  mkConfigurationStore (fun _ _ => none) "in" "__default__"

/-- A configuration built for the container root: `PurePosixPath("")` renders
as `"."`. -/
def c4RootConfig : FolderConfiguration :=
  ⟨.vobj [("prompt", .vstr "hello")], parsePath "", none, none, []⟩

/-- C4 (failing input): for a root-sourced configuration the folder key is
`"."` — truthy in Python — so `write_consolidated_config` writes the blob
`./config.json`, never the claimed root key `config.json`, which is also the
key the root's `build` would read back through `_join`. -/
theorem c4_root_write_target :
    c4RootConfig.source_folder.toString = "."
    ∧ (write_consolidated_config c4Store c4RootConfig).fst.name = "./config.json"
    ∧ "./config.json" ≠ "config.json"
    ∧ joinName (normalizeFolder c4RootConfig.source_folder) "config.json" = "config.json" :=
  ⟨rfl, rfl, by decide, rfl⟩

/-- C1: `process_blob` is total — it returns `SUCCESS` or `FAILURE`, never a
propagated exception — and whenever the pipeline fails with any modelled
exception it persists `{status: "error", message: str(exc)}` as JSON to
`<outputContainer>/<inputKey>.error.json` and returns `FAILURE`; a succeeding
pipeline returns `SUCCESS`. -/
theorem c1_process_blob_failure_capture :
    (∀ (p : DocumentProcessor) (blob_name : String) (e : PyErr),
       (processBlobCore p blob_name).fst = .error e →
       process_blob p blob_name =
         (.FAILURE,
          ⟨p.output_container, blob_name ++ ".error.json",
           .jsonOf (.vobj [("status", .vstr "error"), ("message", .vstr (errMessage e))]),
           "application/json", p.fresh_etag⟩,
          (processBlobCore p blob_name).snd))
  ∧ (∀ (p : DocumentProcessor) (blob_name : String) (r : Bytes × String × String),
       (processBlobCore p blob_name).fst = .ok r →
       (process_blob p blob_name).fst = .SUCCESS) := by
  constructor
  · intro p bn e h
    have hpair : processBlobCore p bn = (Except.error e, (processBlobCore p bn).snd) :=
      Prod.ext h rfl
    unfold process_blob
    rw [hpair]
    rfl
  · intro p bn r h
    rcases r with ⟨payload, extension, content_type⟩
    have hpair : processBlobCore p bn =
        (Except.ok (payload, extension, content_type), (processBlobCore p bn).snd) :=
      Prod.ext h rfl
    unfold process_blob
    rw [hpair]

/-- A processor against empty storage, whose very first pipeline step fails. -/
def c1Proc : DocumentProcessor :=
  ⟨⟨fun _ => .error "unused", fun _ _ => .error "unused", fun _ => .error "unused"⟩,
   fun _ _ => none,
   mkConfigurationStore (fun _ _ => none) "in" "__default__",
   "in", "out", "etag-1"⟩

/-- Witness for C1: the missing input document is caught and persisted as the
error artifact, with outcome `FAILURE`. -/
theorem c1_process_blob_failure_capture_witness :
    process_blob c1Proc "doc.pdf" =
      (.FAILURE,
       ⟨"out", "doc.pdf.error.json",
        .jsonOf (.vobj [("status", .vstr "error"),
                        ("message", .vstr "Blob \x27doc.pdf\x27 not found in container \x27in\x27")]),
        "application/json", "etag-1"⟩,
       c1Proc.config_store) :=
  c1_process_blob_failure_capture.1 c1Proc "doc.pdf"
    (.fileNotFound (blobMissingMsg "doc.pdf" "in")) rfl

/-- Extraction strategy 1: a truthy `guid`/`jobGuid` key of a dict-shaped
parsed body. -/
def guidStrategyDictBody (r : UploadResponse) : Option PValue :=
  match r.parsed with
  | some (.pdict fields) => truthyGuid fields "guid" "jobGuid"
  | _ => none

/-- Extraction strategy 2: a truthy `guid` attribute of a typed (non-dict)
parsed body. -/
def guidStrategyTypedBody (r : UploadResponse) : Option PValue :=
  match r.parsed with
  | some (.pobj (some v)) => if pyTruthy v then some v else none
  | _ => none

/-- Extraction strategy 3: a non-empty string-typed `guid` attribute of the
response itself. -/
def guidStrategyTopLevel (r : UploadResponse) : Option PValue :=
  match r.guid with
  | some (.vstr s) => if s ≠ "" then some (PValue.vstr s) else none
  | _ => none

/-- Extraction strategy 4: a truthy `guid`/`jobGuid` key of the JSON-decoded
raw response bytes, applicable only when they decode to a dict. -/
def guidStrategyRawBytes (r : UploadResponse) : Option PValue :=
  if bytesTruthy r.content then
    match parseJsonBytes r.content with
    | some (.vobj fields) => truthyGuid fields "guid" "jobGuid"
    | _ => none
  else none

/-- Whether the non-empty raw response bytes decode to a non-dict JSON value
(the case where `payload.get` raises `AttributeError`). -/
def contentDecodesNonDict (r : UploadResponse) : Bool :=
  bytesTruthy r.content &&
    (match parseJsonBytes r.content with
     | some (.vobj _) => false
     | some _ => true
     | none => false)

/-- Modelled from the amended claim: evaluate the four extraction strategies
in fixed priority order and return the first value produced; when none
yields a value, fail with the `MissingIdentifier` error — except that raw
bytes decoding to a non-dict JSON value fail with an `AttributeError`
instead. -/
def extractGuidSpec (r : UploadResponse) : Except PyErr PValue :=
  match [guidStrategyDictBody r, guidStrategyTypedBody r, guidStrategyTopLevel r,
         guidStrategyRawBytes r].findSome? id with
  | some g => .ok g
  | none =>
    if contentDecodesNonDict r then .error (.attributeError guidAttrErrMsg)
    else .error (.runtimeError missingGuidMsg)

/-- The code's extraction control flow, restated over the named strategies
(definitional: the strategy bodies are the code's inline probes). -/
lemma extractGuid_eq (r : UploadResponse) :
    extractGuid r =
      match guidStrategyDictBody r with
      | some g => .ok g
      | none =>
        match guidStrategyTypedBody r with
        | some g => .ok g
        | none =>
          match guidStrategyTopLevel r with
          | some g => .ok g
          | none =>
            if bytesTruthy r.content then
              match parseJsonBytes r.content with
              | some (.vobj fields) =>
                match truthyGuid fields "guid" "jobGuid" with
                | some g => .ok g
                | none => .error (.runtimeError missingGuidMsg)
              | some _ => .error (.attributeError guidAttrErrMsg)
              | none => .error (.runtimeError missingGuidMsg)
            else .error (.runtimeError missingGuidMsg) := rfl

/-- C6 (amended): `_extract_guid` equals the ordered-strategy specification —
the four strategies are tried in fixed order, the first truthy value wins,
and when none yields a value the step fails with `MissingIdentifier`, except
that raw bytes decoding to a non-dict JSON value fail with an
`AttributeError` from `payload.get`. -/
theorem c6_extract_guid_strategy_order :
    ∀ r : UploadResponse, extractGuid r = extractGuidSpec r := by
  intro r
  rw [extractGuid_eq]
  unfold extractGuidSpec
  cases h1 : guidStrategyDictBody r with
  | some g => simp [List.findSome?_cons, h1]
  | none =>
  cases h2 : guidStrategyTypedBody r with
  | some g => simp [List.findSome?_cons, h1, h2]
  | none =>
  cases h3 : guidStrategyTopLevel r with
  | some g => simp [List.findSome?_cons, h1, h2, h3]
  | none =>
  cases hb : bytesTruthy r.content with
  | false =>
    have h4 : guidStrategyRawBytes r = none := by simp [guidStrategyRawBytes, hb]
    have h5 : contentDecodesNonDict r = false := by simp [contentDecodesNonDict, hb]
    simp [List.findSome?_cons, h1, h2, h3, h4, h5, hb]
  | true =>
    cases hp : parseJsonBytes r.content with
    | none =>
      have h4 : guidStrategyRawBytes r = none := by simp [guidStrategyRawBytes, hb, hp]
      have h5 : contentDecodesNonDict r = false := by simp [contentDecodesNonDict, hb, hp]
      simp [List.findSome?_cons, h1, h2, h3, h4, h5, hb, hp]
    | some v =>
      cases v with
      | vobj fields =>
        cases ht : truthyGuid fields "guid" "jobGuid" with
        | some g =>
          have h4 : guidStrategyRawBytes r = some g := by
            simp [guidStrategyRawBytes, hb, hp, ht]
          simp [List.findSome?_cons, h1, h2, h3, h4, hb, hp, ht]
        | none =>
          have h4 : guidStrategyRawBytes r = none := by
            simp [guidStrategyRawBytes, hb, hp, ht]
          have h5 : contentDecodesNonDict r = false := by
            simp [contentDecodesNonDict, hb, hp]
          simp [List.findSome?_cons, h1, h2, h3, h4, h5, hb, hp, ht]
      | null =>
        have h4 : guidStrategyRawBytes r = none := by simp [guidStrategyRawBytes, hb, hp]
        have h5 : contentDecodesNonDict r = true := by simp [contentDecodesNonDict, hb, hp]
        simp [List.findSome?_cons, h1, h2, h3, h4, h5, hb, hp]
      | vbool b =>
        have h4 : guidStrategyRawBytes r = none := by simp [guidStrategyRawBytes, hb, hp]
        have h5 : contentDecodesNonDict r = true := by simp [contentDecodesNonDict, hb, hp]
        simp [List.findSome?_cons, h1, h2, h3, h4, h5, hb, hp]
      | vint n =>
        have h4 : guidStrategyRawBytes r = none := by simp [guidStrategyRawBytes, hb, hp]
        have h5 : contentDecodesNonDict r = true := by simp [contentDecodesNonDict, hb, hp]
        simp [List.findSome?_cons, h1, h2, h3, h4, h5, hb, hp]
      | vfloat q =>
        have h4 : guidStrategyRawBytes r = none := by simp [guidStrategyRawBytes, hb, hp]
        have h5 : contentDecodesNonDict r = true := by simp [contentDecodesNonDict, hb, hp]
        simp [List.findSome?_cons, h1, h2, h3, h4, h5, hb, hp]
      | vstr s =>
        have h4 : guidStrategyRawBytes r = none := by simp [guidStrategyRawBytes, hb, hp]
        have h5 : contentDecodesNonDict r = true := by simp [contentDecodesNonDict, hb, hp]
        simp [List.findSome?_cons, h1, h2, h3, h4, h5, hb, hp]
      | varr xs =>
        have h4 : guidStrategyRawBytes r = none := by simp [guidStrategyRawBytes, hb, hp]
        have h5 : contentDecodesNonDict r = true := by simp [contentDecodesNonDict, hb, hp]
        simp [List.findSome?_cons, h1, h2, h3, h4, h5, hb, hp]

/-- C6 counterexample: an upload response whose only lead is raw bytes
decoding to a JSON list — no strategy yields a value, and the code fails
with `AttributeError`, not with the claimed `MissingIdentifier` error. -/
theorem c6_counterexample :
    extractGuid ⟨none, none, .jsonOf (.varr [])⟩ = .error (.attributeError guidAttrErrMsg)
    ∧ PyErr.attributeError guidAttrErrMsg ≠ PyErr.runtimeError missingGuidMsg :=
  ⟨rfl, by decide⟩

/-- A rejected-submission message always starts with `D`. -/
lemma rejectedMsg_head (c : Int) (b : String) :
    (rejectedMsg c b).data.head? = some 'D' := by
  unfold rejectedMsg
  simp only [String.data_append]
  rfl

/-- A missing-input message always starts with `B`. -/
lemma blobMissingMsg_head (b ic : String) :
    (blobMissingMsg b ic).data.head? = some 'B' := by
  unfold blobMissingMsg
  simp only [String.data_append]
  rfl

/-- C7: with the pipeline reaching the submission step, a response status of
400 or greater fails the pipeline with the `ProcessingRejected`
`RuntimeError` carrying the serialized response body, and that persisted
message is distinguishable from the missing-identifier message and from
every missing-input-document message. -/
theorem c7_processing_rejected (p : DocumentProcessor) (blob_path : PPath)
    (document : StorageObject) (config : FolderConfiguration)
    (fields : List (String × PValue)) (ur : UploadResponse) (g : PValue)
    (resp : ProcessResponse) (c : Int)
    (hparams : config.params = .vobj fields)
    (hup : p.client.upload_document
             ⟨document.data, blob_path.name, resolveMimeType fields document⟩ = .ok ur)
    (hguid : extractGuid ur = .ok g)
    (hproc : p.client.process_document g
               (buildCommand fields config (resolveMimeType fields document)) = .ok resp)
    (hstatus : resp.status_code = some c) (hc : 400 ≤ c) :
    uploadAndProcess p blob_path document config =
      .error (.runtimeError (rejectedMsg c (bytesDecode (serializeResponse resp))))
    ∧ rejectedMsg c (bytesDecode (serializeResponse resp)) ≠ missingGuidMsg
    ∧ (∀ b ic, rejectedMsg c (bytesDecode (serializeResponse resp)) ≠ blobMissingMsg b ic) := by
  refine ⟨?_, ?_, ?_⟩
  · unfold uploadAndProcess
    rw [hparams]
    simp only [hup, hguid, hproc, hstatus, hc, if_pos]
  · intro h
    have h1 := rejectedMsg_head c (bytesDecode (serializeResponse resp))
    rw [h] at h1
    rw [show missingGuidMsg.data.head? = some 'U' from rfl] at h1
    exact absurd h1 (by decide)
  · intro b ic h
    have h1 := rejectedMsg_head c (bytesDecode (serializeResponse resp))
    rw [h] at h1
    rw [blobMissingMsg_head] at h1
    exact absurd h1 (by decide)

/-- A client whose upload yields a parsed guid and whose submission is
rejected with status 500 and body `boom`. -/
def c7Client : DocuDevsClient :=
  ⟨fun _ => .ok ⟨some (.pdict [("guid", .vstr "job-1")]), none, .raw ""⟩,
   fun _ _ => .ok ⟨some 500, none, some (.utf8 "boom")⟩,
   fun _ => .error "unused"⟩

/-- A processor around `c7Client`. -/
def c7Proc : DocumentProcessor :=
  ⟨c7Client, fun _ _ => none,
   mkConfigurationStore (fun _ _ => none) "in" "__default__",
   "in", "out", "etag-7"⟩

/-- The resolved configuration used by the C7 witness. -/
def c7Config : FolderConfiguration :=
  ⟨.vobj [("prompt", .vstr "x")], parsePath "f", none, none, []⟩

/-- The input document used by the C7 witness. -/
def c7Doc : StorageObject := ⟨.raw "pdfbytes", "application/pdf", "et"⟩

/-- Witness for C7: the concrete rejected submission produces the
`ProcessingRejected` message, distinct from the missing-identifier one. -/
theorem c7_processing_rejected_witness :
    uploadAndProcess c7Proc (parsePath "f/doc.pdf") c7Doc c7Config =
      .error (.runtimeError (rejectedMsg 500 "boom"))
    ∧ rejectedMsg 500 "boom" ≠ missingGuidMsg :=
  have h := c7_processing_rejected c7Proc (parsePath "f/doc.pdf") c7Doc c7Config
    [("prompt", .vstr "x")] ⟨some (.pdict [("guid", .vstr "job-1")]), none, .raw ""⟩
    (.vstr "job-1") ⟨some 500, none, some (.utf8 "boom")⟩ 500
    rfl rfl rfl rfl rfl (by decide)
  ⟨h.1, h.2.1⟩

/-- C8: deriving wait parameters is total and degrades rather than fails — a
string `resultFormat` outside `{json, csv, excel}` normalizes to `none`, so
the output descriptor falls back to the `.json` extension with content type
`application/json`; the timeout keyword is exactly the positive-int coercion
of the raw timeout parameter and is omitted whenever that coercion fails, and
likewise the poll-interval keyword with the positive-float coercion. -/
theorem c8_wait_parameter_degradation (params : List (String × PValue)) :
    (∀ s, lookupParam params "resultFormat" = some (.vstr s) →
       ¬(pyLower (pyStrip s) = "json" ∨ pyLower (pyStrip s) = "csv"
           ∨ pyLower (pyStrip s) = "excel") →
       (resolveWaitParameters params).fst = none
       ∧ resolveOutputDescriptor (resolveWaitParameters params).fst
           = ("json", "application/json"))
  ∧ (resolveWaitParameters params).snd.timeout = coercePositiveInt (timeoutRaw params)
  ∧ (coercePositiveInt (timeoutRaw params) = none →
       (resolveWaitParameters params).snd.timeout = none)
  ∧ (resolveWaitParameters params).snd.poll_interval = coercePositiveFloat (pollRaw params)
  ∧ (coercePositiveFloat (pollRaw params) = none →
       (resolveWaitParameters params).snd.poll_interval = none) := by
  have hfmt : ∀ s, lookupParam params "resultFormat" = some (.vstr s) →
      ¬(pyLower (pyStrip s) = "json" ∨ pyLower (pyStrip s) = "csv"
          ∨ pyLower (pyStrip s) = "excel") →
      (resolveWaitParameters params).fst = none := by
    intro s hs hn
    unfold resolveWaitParameters
    simp [hs, hn]
  refine ⟨fun s hs hn => ⟨hfmt s hs hn, by rw [hfmt s hs hn]; rfl⟩, rfl, fun h => h, rfl,
    fun h => h⟩

/-- Parameters with an unsupported format, a non-numeric timeout, and a
non-numeric poll interval. -/
def c8Params : List (String × PValue) :=
  [("resultFormat", .vstr "xml"), ("resultTimeoutSeconds", .vstr "abc"),
   ("resultPollIntervalSeconds", .vstr "zz")]

/-- Witness for C8: the unsupported format degrades to the JSON descriptor
and both failed coercions are omitted from the wait keywords. -/
theorem c8_wait_parameter_degradation_witness :
    (resolveWaitParameters c8Params).fst = none
    ∧ resolveOutputDescriptor (resolveWaitParameters c8Params).fst
        = ("json", "application/json")
    ∧ (resolveWaitParameters c8Params).snd.timeout = none
    ∧ (resolveWaitParameters c8Params).snd.poll_interval = none :=
  have h := c8_wait_parameter_degradation c8Params
  ⟨(h.1 "xml" rfl (by decide)).1, (h.1 "xml" rfl (by decide)).2,
   h.2.2.1 (by rfl), h.2.2.2.2 (by rfl)⟩
